import Mathlib

set_option linter.unusedVariables false

/- Shallow embedding of `src/openapi.py` and `src/apiserializer.py` of the
swapiview repository.  JSON values are modelled by an inductive type, Python
dicts by insertion-ordered association lists, Python exceptions by an explicit
error type threaded through `Except`, and the filesystem read by
`json.load(open(...))` by a partial map from file paths to parsed JSON. -/

inductive Json : Type where
  | null : Json
  | bool : Bool → Json
  | num : Int → Json
  | str : String → Json
  | arr : List Json → Json
  | obj : List (String × Json) → Json

inductive PyErr : Type where
  | keyError : String → PyErr
  | valueError : String → PyErr
  | typeError : String → PyErr
  | attributeError : String → PyErr
  | fileNotFound : String → PyErr
  | recursionError : PyErr
  deriving DecidableEq, Repr

/-- First-match lookup in an insertion-ordered dict, Python `d[k]` / `d.get(k)`. -/
def lookup? (k : String) : List (String × Json) → Option Json
  | [] => none
  | kv :: rest => if kv.1 = k then some kv.2 else lookup? k rest

/-- Python `k in d`. -/
def containsKey (l : List (String × Json)) (k : String) : Bool :=
  (lookup? k l).isSome

/-- Python `d.pop(k)` (the removal part; dict keys are unique in parsed JSON). -/
def eraseKey (k : String) (l : List (String × Json)) : List (String × Json) :=
  l.filter (fun kv => !(kv.1 == k))

/-- Python `base.update(upd)`: keys already in `base` keep their position and
take the value from `upd`; keys only in `upd` are appended in `upd` order. -/
def dictUpdate (base upd : List (String × Json)) : List (String × Json) :=
  base.map (fun kv => (kv.1, ((lookup? kv.1 upd).getD kv.2)))
    ++ upd.filter (fun kv => !(containsKey base kv.1))

/-- Python `j == s` for a JSON value and a string literal. -/
def isStrEq (j : Json) (s : String) : Bool :=
  match j with
  | .str t => t == s
  | _ => false

/-- Python truthiness of a JSON value. -/
def jsonTruthy : Json → Bool
  | .null => false
  | .bool b => b
  | .num n => n != 0
  | .str s => s != ""
  | .arr xs => !xs.isEmpty
  | .obj kvs => !kvs.isEmpty

/-- A JSON value used where the code requires a dict (`.copy()`, `.items()`, …);
anything else raises in Python. -/
def asObjE (j : Json) : Except PyErr (List (String × Json)) :=
  match j with
  | .obj kvs => .ok kvs
  | _ => .error (.attributeError "fragment is not a dict")

/-- Split a character list at the first occurrence of the (non-empty)
separator, returning the pieces before and after it. -/
def splitOnceChars (sep : List Char) : List Char → Option (List Char × List Char)
  | [] => none
  | c :: cs =>
    if sep.isPrefixOf (c :: cs) then some ([], (c :: cs).drop sep.length)
    else
      match splitOnceChars sep cs with
      | some (a, b) => some (c :: a, b)
      | none => none

def pySplitAux (sep : String) : Nat → String → List String
  | 0, s => [s]
  | Nat.succ m, s =>
    match splitOnceChars sep.toList s.toList with
    | none => [s]
    | some (a, b) => String.mk a :: pySplitAux sep m (String.mk b)

/-- Python `s.split(sep, maxsplit)` for a non-empty separator: at most
`maxsplit` splits are performed, scanning left to right. -/
def pySplit (sep : String) (maxsplit : Nat) (s : String) : List String :=
  pySplitAux sep maxsplit s

/-- Split a character list on every occurrence of the (non-empty) separator;
the first argument is fuel, always called with the list's length, which
bounds the number of splits. -/
def splitAllAux (sep : List Char) : Nat → List Char → List (List Char)
  | 0, s => [s]
  | Nat.succ n, s =>
    match splitOnceChars sep s with
    | none => [s]
    | some (a, b) => a :: splitAllAux sep n b

/-- Python `s.split(sep)` with no maxsplit, for a non-empty separator. -/
def pySplitAll (sep : String) (s : String) : List String :=
  (splitAllAux sep.toList s.toList.length s.toList).map (fun cs => String.mk cs)

/-- Python `s.split("/")[-1]`. -/
def lastSegment (s : String) : String :=
  (pySplitAll "/" s).getLastD ""

/-- Model of `os.path.isabs` on POSIX. -/
def pyIsAbs (p : String) : Bool :=
  match p.toList with
  | '/' :: _ => true
  | _ => false

/-- Join path pieces back with `/` separators. -/
def joinWithSlash : List (List Char) → List Char
  | [] => []
  | [x] => x
  | x :: xs => x ++ '/' :: joinWithSlash xs

/-- Model of `os.path.dirname` (POSIX, simplified to the shapes exercised here):
everything before the last `/`. -/
def pyDirname (p : String) : String :=
  String.mk (joinWithSlash (splitAllAux ['/'] p.toList.length p.toList).dropLast)

/-- Model of `os.path.join` (POSIX, simplified: the second component is relative). -/
def pyJoin (d p : String) : String :=
  if d = "" then p else d ++ "/" ++ p

/-- The `Document`-owned state that reference resolution needs: the parsed
contents of every readable file, and the document's own absolute path. -/
structure DocCtx : Type where
  fs : String → Option Json
  file_path : String

/-- The descent loop of `Document.load_fragment`: index into the loaded JSON
document by each non-empty path segment. -/
def descendPath : Json → List String → Except PyErr Json
  | doc, [] => .ok doc
  | doc, part :: rest =>
    if part = "" then descendPath doc rest
    else
      match doc with
      | .obj kvs =>
        match lookup? part kvs with
        | some v => descendPath v rest
        | none => .error (.keyError part)
      | _ => .error (.typeError "fragment is not subscriptable by a string key")

/-- Model of `Document.load_fragment` (src/openapi.py lines 471-489): split the pointer
with `split("#/", maxsplit=2)` and unpack into exactly two names, resolve the
file part against the document's own path, read the file, and descend along
the local path.  Unpacking fails (ValueError) unless the split produced
exactly two pieces. -/
def load_fragment (ctx : DocCtx) (jsonpointer : String) : Except PyErr Json :=
  match pySplit "#/" 2 jsonpointer with
  | [filepathjsonpointer, localjsonpointer] =>
    let file_path :=
      if filepathjsonpointer = "." ∨ filepathjsonpointer = "" ∨ filepathjsonpointer = "./" then
        ctx.file_path
      else if !(pyIsAbs filepathjsonpointer) then
        pyJoin (pyDirname ctx.file_path) filepathjsonpointer
      else filepathjsonpointer
    match ctx.fs file_path with
    | some document => descendPath document (pySplitAll "/" localjsonpointer)
    | none => .error (.fileNotFound file_path)
  | parts => .error (.valueError ("cannot unpack " ++ toString parts.length ++ " values into 2"))

/-- Model of `_OpenApiElement.resolve` (src/openapi.py lines 22-29): copy the fragment,
pop `$ref`; when present, load the target and `update` the copy with it (so
the target's keys overwrite sibling keys).  Only a `KeyError` — from the pop,
or from a missing path segment during the load — is caught and ignored, in
which case the copy (with `$ref` already popped) is returned. -/
def elemResolve (ctx : DocCtx) (jsonfragment : List (String × Json)) :
    Except PyErr (List (String × Json)) :=
  match lookup? "$ref" jsonfragment with
  | none => .ok jsonfragment
  | some refv =>
    let popped := eraseKey "$ref" jsonfragment
    match refv with
    | .str ref =>
      match load_fragment ctx ref with
      | .ok (.obj targetkvs) => .ok (dictUpdate popped targetkvs)
      | .ok _ => .error (.typeError "dict.update requires a mapping")
      | .error (.keyError _) => .ok popped
      | .error e => .error e
    | _ => .error (.attributeError "object has no attribute split")

/-- Model of `Document.resolve_fragment` (src/openapi.py lines 462-469): copy the
fragment; when a truthy `$ref` is present, `update` the copy with the loaded
target (the `$ref` key itself is not removed).  No exception is caught. -/
def resolve_fragment (ctx : DocCtx) (fragment : List (String × Json)) :
    Except PyErr (List (String × Json)) :=
  match lookup? "$ref" fragment with
  | none => .ok fragment
  | some refv =>
    if jsonTruthy refv then
      match refv with
      | .str ref =>
        match load_fragment ctx ref with
        | .ok (.obj targetkvs) => .ok (dictUpdate fragment targetkvs)
        | .ok _ => .error (.typeError "dict.update requires a mapping")
        | .error e => .error e
      | _ => .error (.attributeError "object has no attribute split")
    else .ok fragment

/-- Model of `Schema.typename` (src/openapi.py lines 40-52): the trailing segment of a
`$ref`; else, for `type == "array"` with an `items` key, brackets around the
trailing segment of `items["$ref"]` — an access that is outside the
`try/except KeyError` guarding the first branch; else the `"?"` sentinel. -/
def schemaTypename (raw : List (String × Json)) : Except PyErr String :=
  match lookup? "$ref" raw with
  | some (.str r) => .ok (lastSegment r)
  | some _ => .error (.attributeError "object has no attribute split")
  | none =>
    if isStrEq ((lookup? "type" raw).getD (.str "")) "array" && containsKey raw "items" then
      match lookup? "items" raw with
      | some (.obj ikvs) =>
        match lookup? "$ref" ikvs with
        | some (.str r) => .ok ("[" ++ lastSegment r ++ "]")
        | some _ => .error (.attributeError "object has no attribute split")
        | none => .error (.keyError "$ref")
      | some _ => .error (.typeError "items fragment is not subscriptable by a string key")
      | none => .error (.keyError "items")
    else .ok "?"

/-- Model of `QueryHeaderParameter.typename` (src/openapi.py lines 107-115): the
resolved fragment's `type` (default `""`); when it is `"array"`, the code
evaluates `"[" + self.jsonfragment["items"] + "]"`, concatenating the raw
`items` value — which only succeeds when that value is itself a string. -/
def qhp_typename (resolved : List (String × Json)) : Except PyErr Json :=
  let tn := (lookup? "type" resolved).getD (.str "")
  if isStrEq tn "array" then
    match lookup? "items" resolved with
    | none => .error (.keyError "items")
    | some (.str s) => .ok (.str ("[" ++ s ++ "]"))
    | some _ => .error (.typeError "can only concatenate str to str")
  else .ok tn

/-- Model of `ModelProperty.type_information` (src/openapi.py lines 153-160): trailing
segment of `$ref` when present; else resolve the fragment and return its
`type` value; else the `"huh?"` sentinel. -/
def type_information (ctx : DocCtx) (raw_jsonfragment : List (String × Json)) :
    Except PyErr Json :=
  match lookup? "$ref" raw_jsonfragment with
  | some (.str r) => .ok (.str (lastSegment r))
  | some _ => .error (.attributeError "object has no attribute split")
  | none =>
    match resolve_fragment ctx raw_jsonfragment with
    | .error e => .error e
    | .ok jsonfragment =>
      match lookup? "type" jsonfragment with
      | some t => .ok t
      | none => .ok (.str "huh?")

/-- Claim C3 (code bug): `load_fragment` splits with `maxsplit=2`, so a
pointer containing two `#/` occurrences splits into three pieces and the
unpacking into a file part and a path part raises `ValueError`, contradicting
the claim that the split succeeds for any pointer with at least one `#/`. -/
theorem claim_C3_split_crashes :
    pySplit "#/" 2 "./models.json#/definitions/a#/b"
      = ["./models.json", "definitions/a", "b"]
    ∧ load_fragment ⟨fun _ => none, "/spec.json"⟩ "./models.json#/definitions/a#/b"
      = .error (.valueError "cannot unpack 3 values into 2")
    ∧ pySplit "#/" 2 "#/definitions/a" = ["", "definitions/a"] :=
  ⟨rfl, rfl, rfl⟩

/-- Claim C4 (code bug): on an array-typed query parameter whose `items` is a
sub-fragment (a dict, the well-formed Swagger shape), `QueryHeaderParameter.typename`
concatenates the dict to a string and raises `TypeError`; the scalar case
returns the declared type. -/
theorem claim_C4_array_param_crashes :
    qhp_typename [("name", Json.str "ids"), ("in", Json.str "query"),
        ("type", Json.str "array"), ("items", Json.obj [("type", Json.str "string")])]
      = .error (.typeError "can only concatenate str to str")
    ∧ qhp_typename [("name", Json.str "top"), ("in", Json.str "query"),
        ("type", Json.str "integer")]
      = .ok (Json.str "integer") :=
  ⟨rfl, rfl⟩

/-- Claim C5 (code bug): `Schema.typename` on an array schema whose `items`
carries no `$ref` raises `KeyError` instead of returning the `"?"` sentinel;
the sentinels themselves (`"?"` for `Schema`, `"huh?"` for
`ModelProperty.type_information`) do exist on the other undetermined paths. -/
theorem claim_C5_schema_typename_crashes :
    schemaTypename [("type", Json.str "array"),
        ("items", Json.obj [("type", Json.str "string")])]
      = .error (.keyError "$ref")
    ∧ schemaTypename [("description", Json.str "free-form")] = .ok "?"
    ∧ type_information ⟨fun _ => none, "/spec.json"⟩ [("description", Json.str "free-form")]
      = .ok (Json.str "huh?") :=
  ⟨rfl, rfl, rfl⟩

theorem lookup_append_some {k : String} {a b : List (String × Json)} {v : Json}
    (h : lookup? k a = some v) : lookup? k (a ++ b) = some v := by
  induction a with
  | nil => simp [lookup?] at h
  | cons kv rest ih =>
    by_cases hk : kv.1 = k
    · simpa [lookup?, hk] using h
    · simp only [lookup?, hk, if_false] at h ⊢
      exact ih h

theorem lookup_append_none {k : String} {a b : List (String × Json)}
    (h : lookup? k a = none) : lookup? k (a ++ b) = lookup? k b := by
  induction a with
  | nil => simp
  | cons kv rest ih =>
    by_cases hk : kv.1 = k
    · simp [lookup?, hk] at h
    · simp only [lookup?, hk, if_false] at h ⊢
      exact ih h

theorem lookup_map_overwrite (k : String) (base u : List (String × Json)) :
    lookup? k (base.map (fun kv => (kv.1, ((lookup? kv.1 u).getD kv.2))))
      = (lookup? k base).map (fun v => (lookup? k u).getD v) := by
  induction base with
  | nil => simp [lookup?]
  | cons kv rest ih =>
    by_cases hk : kv.1 = k
    · subst hk
      simp [lookup?]
    · simp only [List.map_cons, lookup?, hk, if_false]
      exact ih

theorem lookup_filter_of_key_true {k : String} {p : String × Json → Bool}
    (l : List (String × Json)) (h : ∀ v, p (k, v) = true) :
    lookup? k (l.filter p) = lookup? k l := by
  induction l with
  | nil => rfl
  | cons kv rest ih =>
    obtain ⟨k1, v1⟩ := kv
    by_cases hk : k1 = k
    · subst hk
      rw [List.filter_cons_of_pos (h v1)]
      simp [lookup?]
    · by_cases hp : p (k1, v1) = true
      · rw [List.filter_cons_of_pos hp]
        simp only [lookup?, hk, if_false]
        exact ih
      · rw [List.filter_cons_of_neg (by simpa using hp)]
        rw [ih]
        simp [lookup?, hk]

theorem lookup_filter_of_key_false {k : String} {p : String × Json → Bool}
    (l : List (String × Json)) (h : ∀ v, p (k, v) = false) :
    lookup? k (l.filter p) = none := by
  induction l with
  | nil => rfl
  | cons kv rest ih =>
    obtain ⟨k1, v1⟩ := kv
    by_cases hk : k1 = k
    · subst hk
      rw [List.filter_cons_of_neg (by simp [h v1])]
      exact ih
    · by_cases hp : p (k1, v1) = true
      · rw [List.filter_cons_of_pos hp]
        simp only [lookup?, hk, if_false]
        exact ih
      · rw [List.filter_cons_of_neg (by simpa using hp)]
        exact ih

/-- Characterisation of Python `dict.update`: a key present in the updating
dict takes its value from there, any other key keeps the base dict's value. -/
theorem lookup_dictUpdate (k : String) (b u : List (String × Json)) :
    lookup? k (dictUpdate b u)
      = if containsKey u k then lookup? k u else lookup? k b := by
  unfold dictUpdate
  cases hb : lookup? k b with
  | none =>
    have hmap : lookup? k (b.map (fun kv => (kv.1, ((lookup? kv.1 u).getD kv.2)))) = none := by
      rw [lookup_map_overwrite, hb]; rfl
    rw [lookup_append_none hmap]
    have hbk : containsKey b k = false := by simp [containsKey, hb]
    have hfilter : lookup? k (u.filter (fun kv => !(containsKey b kv.1))) = lookup? k u := by
      apply lookup_filter_of_key_true
      intro v
      simp [hbk]
    rw [hfilter]
    cases hu : lookup? k u with
    | none => simp [containsKey, hu]
    | some w => simp [containsKey, hu]
  | some v0 =>
    have hmap : lookup? k (b.map (fun kv => (kv.1, ((lookup? kv.1 u).getD kv.2))))
        = some ((lookup? k u).getD v0) := by
      rw [lookup_map_overwrite, hb]; rfl
    rw [lookup_append_some hmap]
    cases hu : lookup? k u with
    | none => simp [containsKey, hu]
    | some w => simp [containsKey, hu]

theorem lookup_eraseKey (k k' : String) (l : List (String × Json)) :
    lookup? k (eraseKey k' l) = if k = k' then none else lookup? k l := by
  unfold eraseKey
  by_cases hk : k = k'
  · subst hk
    rw [if_pos rfl]
    apply lookup_filter_of_key_false
    intro v
    simp
  · rw [if_neg hk]
    apply lookup_filter_of_key_true
    intro v
    simp
    exact hk

def c1fs : String → Option Json := fun p =>
  if p = "/spec.json" then
    some (.obj [("d", .obj [("k", .str "target"), ("extra", .str "fromtarget")])])
  else none

def c1ctx : DocCtx := ⟨c1fs, "/spec.json"⟩

def c1frag : List (String × Json) := [("$ref", Json.str "#/d"), ("k", Json.str "sibling")]

def c1target : List (String × Json) :=
  [("k", Json.str "target"), ("extra", Json.str "fromtarget")]

/-- Claim C1 (counterexample): a fragment with a `$ref` and a sibling key `k`
whose ref target also declares `k` resolves to the target's value for `k`,
not the sibling's — the merge overlays the loaded target over the caller's
sibling keys, the opposite of the claimed precedence. -/
theorem claim_C1_counterexample :
    lookup? "k" c1frag = some (Json.str "sibling")
    ∧ elemResolve c1ctx c1frag = .ok c1target
    ∧ lookup? "k" c1target = some (Json.str "target")
    ∧ Json.str "target" ≠ Json.str "sibling" := by
  refine ⟨rfl, rfl, rfl, ?_⟩
  intro h
  injection h with h1
  exact absurd h1 (by decide)

/-- Claim C1 (amended): when a fragment carries `$ref` alongside sibling keys,
`resolve` returns a shallow copy in which the merge starts from the caller's
sibling keys (with `$ref` removed) and then overlays the loaded ref-target
fragment, so for any key present both in the target and as a sibling the
target's (loaded) value takes precedence; sibling keys absent from the target
keep their caller-declared values. -/
theorem claim_C1_amended (ctx : DocCtx) (frag : List (String × Json))
    (ref : String) (targetkvs merged : List (String × Json))
    (href : lookup? "$ref" frag = some (.str ref))
    (hload : load_fragment ctx ref = .ok (.obj targetkvs))
    (hres : elemResolve ctx frag = .ok merged) :
    (∀ k v, lookup? k targetkvs = some v → lookup? k merged = some v)
    ∧ (∀ k, containsKey targetkvs k = false → k ≠ "$ref" →
        lookup? k merged = lookup? k frag) := by
  unfold elemResolve at hres
  simp only [href] at hres
  simp only [hload] at hres
  have hmerged : merged = dictUpdate (eraseKey "$ref" frag) targetkvs := by
    exact (Except.ok.inj hres).symm
  subst hmerged
  constructor
  · intro k v hv
    rw [lookup_dictUpdate]
    have : containsKey targetkvs k = true := by simp [containsKey, hv]
    rw [this, if_pos rfl]
    exact hv
  · intro k hk hne
    rw [lookup_dictUpdate, hk]
    simp only [Bool.false_eq_true, if_false]
    rw [lookup_eraseKey]
    exact if_neg hne

/-- Witness for C1 (amended) at the concrete counterexample environment. -/
theorem claim_C1_witness :
    lookup? "k" c1target = some (Json.str "target")
    ∧ lookup? "extra" c1target = some (Json.str "fromtarget") :=
  ⟨(claim_C1_amended c1ctx c1frag "#/d" c1target c1target rfl rfl rfl).1
      "k" (Json.str "target") rfl,
   (claim_C1_amended c1ctx c1frag "#/d" c1target c1target rfl rfl rfl).1
      "extra" (Json.str "fromtarget") rfl⟩

/-- Sequential monadic map over `Except`, mirroring a Python list
comprehension: the first raised exception aborts the whole build. -/
def mapME {α β : Type} (f : α → Except PyErr β) : List α → Except PyErr (List β)
  | [] => .ok []
  | x :: xs =>
    match f x with
    | .error e => .error e
    | .ok y =>
      match mapME f xs with
      | .error e => .error e
      | .ok ys => .ok (y :: ys)

/-- Python `str(value)` for the JSON scalars that can appear where the code
expects a string (containers abbreviated; not exercised by the claims). -/
def pyStr : Json → String
  | .str s => s
  | .null => "None"
  | .bool true => "True"
  | .bool false => "False"
  | .num n => toString n
  | .arr _ => "<list>"
  | .obj _ => "<dict>"

def charsToNatAux : List Char → Nat → Option Nat
  | [], acc => some acc
  | c :: cs, acc =>
    if 48 ≤ c.toNat ∧ c.toNat ≤ 57 then charsToNatAux cs (acc * 10 + (c.toNat - 48))
    else none

/-- Python `int(s)` for the status-code keys (sign handling included;
whitespace stripping omitted — not exercised by the claims). -/
def pyInt (s : String) : Except PyErr Int :=
  match s.toList with
  | [] => .error (.valueError ("invalid literal for int: " ++ s))
  | '-' :: rest =>
    match rest, charsToNatAux rest 0 with
    | _ :: _, some n => .ok (-(n : Int))
    | _, _ => .error (.valueError ("invalid literal for int: " ++ s))
  | cs =>
    match charsToNatAux cs 0 with
    | some n => .ok (n : Int)
    | none => .error (.valueError ("invalid literal for int: " ++ s))

structure SchemaM : Type where
  jsonpointer : String
  raw_jsonfragment : List (String × Json)
  jsonfragment : List (String × Json)

structure BodyParameterM : Type where
  jsonpointer : String
  jsonfragment : List (String × Json)
  schema : SchemaM

structure ResponseM : Type where
  jsonpointer : String
  jsonfragment : List (String × Json)
  schema : Option SchemaM

/-- Model of `Operation.return_value` is either a `Response` or the attribute-poor
`VoidResponse` sentinel (src/openapi.py lines 102-104). -/
inductive ReturnValue : Type where
  | resp : ResponseM → ReturnValue
  | voidSentinel : ReturnValue

structure QHParamM : Type where
  jsonpointer : String
  jsonfragment : List (String × Json)

/-- Model of `ModelProperty`: jsonpointer, name, typename (the raw JSON value that
`type_information` returned), itemtypename, typetype, nested properties. -/
inductive ModelPropertyM : Type where
  | mk : String → String → Json → Option Json → String → List ModelPropertyM → ModelPropertyM

def ModelPropertyM.jsonpointer : ModelPropertyM → String
  | .mk p _ _ _ _ _ => p

def ModelPropertyM.name : ModelPropertyM → String
  | .mk _ n _ _ _ _ => n

def ModelPropertyM.typename : ModelPropertyM → Json
  | .mk _ _ t _ _ _ => t

def ModelPropertyM.itemtypename : ModelPropertyM → Option Json
  | .mk _ _ _ i _ _ => i

def ModelPropertyM.typetype : ModelPropertyM → String
  | .mk _ _ _ _ t _ => t

def ModelPropertyM.properties : ModelPropertyM → List ModelPropertyM
  | .mk _ _ _ _ _ ps => ps

/-- Model of `Definition`: jsonpointer, jsonfragment (after the inline-`allOf` merges),
typename, recursive bases, properties, and the warnings the constructor
logged. -/
inductive DefinitionM : Type where
  | mk : String → List (String × Json) → String → List DefinitionM →
      List ModelPropertyM → List String → DefinitionM

def DefinitionM.jsonpointer : DefinitionM → String
  | .mk p _ _ _ _ _ => p

def DefinitionM.jsonfragment : DefinitionM → List (String × Json)
  | .mk _ f _ _ _ _ => f

def DefinitionM.typename : DefinitionM → String
  | .mk _ _ t _ _ _ => t

def DefinitionM.bases : DefinitionM → List DefinitionM
  | .mk _ _ _ b _ _ => b

def DefinitionM.properties : DefinitionM → List ModelPropertyM
  | .mk _ _ _ _ ps _ => ps

def DefinitionM.warnings : DefinitionM → List String
  | .mk _ _ _ _ _ w => w

structure OperationM : Type where
  jsonpointer : String
  jsonfragment : List (String × Json)
  verb : String
  name : String
  body_parameter : Option BodyParameterM
  query_parameters : List QHParamM
  header_parameters : List QHParamM
  path_parameters : List QHParamM
  return_value : ReturnValue
  exceptions : List ResponseM
  warnings : List String

structure PathM : Type where
  name : String
  operations : List OperationM

structure DocumentM : Type where
  definitions : List DefinitionM
  paths : List PathM

/-- Model of `Schema.__init__` (src/openapi.py lines 32-38): resolve, then override the
jsonpointer with the raw `$ref` value when one is present (a non-string
`$ref` already failed inside `resolve`). -/
def mkSchema (ctx : DocCtx) (jsonpointer : String) (frag : List (String × Json)) :
    Except PyErr SchemaM :=
  match elemResolve ctx frag with
  | .error e => .error e
  | .ok resolved =>
    let ptr :=
      match lookup? "$ref" frag with
      | some (.str r) => r
      | some _ => jsonpointer
      | none => jsonpointer
    .ok ⟨ptr, frag, resolved⟩

/-- Model of `BodyParameter.__init__` (src/openapi.py lines 55-62): resolve, then build
the schema from the required `schema` key of the resolved fragment. -/
def mkBodyParameter (ctx : DocCtx) (jsonpointer : String)
    (frag : List (String × Json)) : Except PyErr BodyParameterM :=
  match elemResolve ctx frag with
  | .error e => .error e
  | .ok resolved =>
    match lookup? "schema" resolved with
    | none => .error (.keyError "schema")
    | some sv =>
      match asObjE sv with
      | .error e => .error e
      | .ok skvs =>
        match mkSchema ctx (jsonpointer ++ "/schema") skvs with
        | .error e => .error e
        | .ok s => .ok ⟨jsonpointer, resolved, s⟩

/-- Model of `Response.__init__` (src/openapi.py lines 69-84). -/
def mkResponse (ctx : DocCtx) (jsonpointer : String)
    (frag : List (String × Json)) : Except PyErr ResponseM :=
  match elemResolve ctx frag with
  | .error e => .error e
  | .ok resolved =>
    match lookup? "schema" resolved with
    | none => .ok ⟨jsonpointer, resolved, none⟩
    | some sv =>
      match asObjE sv with
      | .error e => .error e
      | .ok skvs =>
        match mkSchema ctx (jsonpointer ++ "/schema") skvs with
        | .error e => .error e
        | .ok s => .ok ⟨jsonpointer, resolved, some s⟩

/-- Model of `Response.typename` (lazy property): the schema's typename, else `"void"`. -/
def responseTypename (r : ResponseM) : Except PyErr String :=
  match r.schema with
  | some s => schemaTypename s.raw_jsonfragment
  | none => .ok "void"

/-- Model of `QueryHeaderParameter` construction: just the base-class resolution; the
code passes the literal string "unknown" as the jsonpointer. -/
def mkQHParam (ctx : DocCtx) (frag : List (String × Json)) : Except PyErr QHParamM :=
  match elemResolve ctx frag with
  | .error e => .error e
  | .ok resolved => .ok ⟨"unknown", resolved⟩

/-- Model of `document.resolve_fragment(parameterjsonfragment).get("in", "")` as used
by the parameter-group filters in `Operation.__init__`. -/
def paramIn (ctx : DocCtx) (p : Json) : Except PyErr Json :=
  match asObjE p with
  | .error e => .error e
  | .ok kvs =>
    match resolve_fragment ctx kvs with
    | .error e => .error e
    | .ok resolved => .ok ((lookup? "in" resolved).getD (.str ""))

/-- Model of `Operation.__init__` (src/openapi.py lines 204-318).  The `logger.warn`
calls for ambiguous return/exception types are modelled as collected warning
strings; `next(enumerate(...))` over the filtered body candidates always
yields index 0, so the body parameter's pointer is the operation pointer
followed by `[0]`. -/
def mkOperation (ctx : DocCtx) (jsonpointer verb : String)
    (frag : List (String × Json)) : Except PyErr OperationM := do
  let resolved ← elemResolve ctx frag
  let paramsJson : List Json ←
    match lookup? "parameters" resolved with
    | none => pure []
    | some (.arr xs) => pure xs
    | some _ => throw (.typeError "parameters is not a list")
  let paramsWithIn ← mapME (fun p => do
      let i ← paramIn ctx p
      pure (p, i)) paramsJson
  let body_parameter ←
    match (paramsWithIn.filter (fun q => isStrEq q.2 "body")).map (fun q => q.1) with
    | [] => pure none
    | b :: _ => do
        let bkvs ← asObjE b
        let bp ← mkBodyParameter ctx (jsonpointer ++ "[0]") bkvs
        pure (some bp)
  let query_parameters ← mapME (fun q => do
      let kvs ← asObjE q.1
      mkQHParam ctx kvs) (paramsWithIn.filter (fun q => isStrEq q.2 "query"))
  let header_parameters ← mapME (fun q => do
      let kvs ← asObjE q.1
      mkQHParam ctx kvs) (paramsWithIn.filter (fun q => isStrEq q.2 "header"))
  let path_parameters ← mapME (fun q => do
      let kvs ← asObjE q.1
      mkQHParam ctx kvs) (paramsWithIn.filter (fun q => isStrEq q.2 "path"))
  let responsesKvs : List (String × Json) ←
    match lookup? "responses" resolved with
    | none => pure []
    | some (.obj kvs) => pure kvs
    | some _ => throw (.attributeError "responses is not a dict")
  let kept ← mapME (fun kv => do
      if kv.1 == "default" then pure none
      else do
        let rkvs ← asObjE kv.2
        let rres ← resolve_fragment ctx rkvs
        if containsKey rres "x-ms-error-response" then pure none
        else pure (some (kv.1, rkvs))) responsesKvs
  let return_values ← mapME
      (fun kv => mkResponse ctx (jsonpointer ++ "/" ++ kv.1) kv.2)
      (kept.filterMap id)
  let withCodes ← mapME (fun r => do
      let c ← pyInt (lastSegment r.jsonpointer)
      pure (r, c)) return_values
  let success_responses :=
    (withCodes.filter (fun rc => decide (200 ≤ rc.2) && decide (rc.2 < 300))).map
      (fun rc => rc.1)
  let opname :=
    match lookup? "operationId" resolved with
    | some v => pyStr v
    | none => "<Unknown>"
  let warnRet ←
    if success_responses.isEmpty then pure ([] : List String)
    else do
      let tns ← mapME responseTypename success_responses
      if (tns.filter (fun t => !(t == "void"))).dedup.length > 1 then
        pure ["Multiple return types for operation " ++ opname]
      else pure []
  let return_value :=
    match success_responses with
    | [] => ReturnValue.voidSentinel
    | r :: _ => ReturnValue.resp r
  let exceptionsL :=
    (withCodes.filter (fun rc => !(decide (200 ≤ rc.2) && decide (rc.2 < 300)))).map
      (fun rc => rc.1)
  let warnExc ←
    if exceptionsL.isEmpty then pure ([] : List String)
    else do
      let tns ← mapME responseTypename exceptionsL
      if (tns.filter (fun t => !(t == "void"))).dedup.length > 1 then
        pure ["Multiple exception types for operation " ++ opname]
      else pure []
  pure ⟨jsonpointer, resolved, verb.toUpper, opname, body_parameter,
        query_parameters, header_parameters, path_parameters,
        return_value, exceptionsL, warnRet ++ warnExc⟩

/-- Model of `ModelProperty.__init__` (src/openapi.py lines 122-151); fueled because a
cyclic `$ref` chain would recurse forever in the source. -/
def mkModelProperty : Nat → DocCtx → String → String → List (String × Json) →
    Except PyErr ModelPropertyM
  | 0, _, _, _, _ => .error .recursionError
  | Nat.succ fuel, ctx, jsonpointer, name, frag =>
    match elemResolve ctx frag with
    | .error e => .error e
    | .ok resolved =>
      match type_information ctx frag with
      | .error e => .error e
      | .ok tn =>
        match
          (if isStrEq tn "array" then
            match lookup? "items" resolved with
            | none => Except.error (PyErr.keyError "items")
            | some iv =>
              match asObjE iv with
              | .error e => .error e
              | .ok ikvs =>
                match type_information ctx ikvs with
                | .error e => .error e
                | .ok itn => .ok (some itn)
          else .ok none) with
        | .error e => .error e
        | .ok itn =>
          let typetype :=
            if isStrEq tn "string" || isStrEq tn "boolean" || isStrEq tn "number" ||
                isStrEq tn "object" then "scalar"
            else "model"
          match
            (match lookup? "properties" frag with
             | none => Except.ok ([] : List (String × Json))
             | some (.obj pkvs) => .ok pkvs
             | some _ => .error (PyErr.attributeError "properties is not a dict")) with
          | .error e => .error e
          | .ok pkvs =>
            match mapME (fun kv =>
                match asObjE kv.2 with
                | .error e => .error e
                | .ok cf =>
                  mkModelProperty fuel ctx (jsonpointer ++ "/properties/" ++ kv.1) kv.1 cf)
                pkvs with
            | .error e => .error e
            | .ok children => .ok (.mk jsonpointer name tn itn typetype children)

/-- Model of `Definition.__init__` (src/openapi.py lines 163-201): resolve; every
`allOf` entry with a `$ref` becomes a recursively built base (constructed
from `self.resolve(base)` under the ref's pointer and trailing-segment name);
every entry without one is merged into the resolved fragment with a logged
warning; properties are then built from the merged fragment (note the
source's pointer concatenation omits the slash after "properties"). -/
def mkDefinition : Nat → DocCtx → String → String → List (String × Json) →
    Except PyErr DefinitionM
  | 0, _, _, _, _ => .error .recursionError
  | Nat.succ fuel, ctx, jsonpointer, name, frag =>
    match elemResolve ctx frag with
    | .error e => .error e
    | .ok resolved =>
      match
        (match lookup? "allOf" frag with
         | none => Except.ok ([] : List (List (String × Json)))
         | some (.arr xs) => mapME asObjE xs
         | some _ => .error (PyErr.typeError "allOf is not a list")) with
      | .error e => .error e
      | .ok allOfEntries =>
        match mapME (fun entry =>
            match lookup? "$ref" entry with
            | some (.str r) =>
              (match elemResolve ctx entry with
               | .error e2 => Except.error e2
               | .ok rb => mkDefinition fuel ctx r (lastSegment r) rb)
            | some _ => .error (PyErr.attributeError "object has no attribute split")
            | none => .error (PyErr.keyError "$ref"))
            (allOfEntries.filter (fun entry => containsKey entry "$ref")) with
        | .error e => .error e
        | .ok bases =>
          let inlines := allOfEntries.filter (fun entry => !(containsKey entry "$ref"))
          let warnings := inlines.map (fun _ =>
            "Inline \"allOf\" definition for model " ++ name ++
              ". This is an odd construct. Doing my best!")
          let merged := inlines.foldl (fun acc entry => dictUpdate acc entry) resolved
          match
            (match lookup? "properties" merged with
             | none => Except.ok ([] : List (String × Json))
             | some (.obj pkvs) => .ok pkvs
             | some _ => .error (PyErr.attributeError "properties is not a dict")) with
          | .error e => .error e
          | .ok pkvs =>
            match mapME (fun kv =>
                match asObjE kv.2 with
                | .error e => .error e
                | .ok pf =>
                  mkModelProperty fuel ctx (jsonpointer ++ "/properties" ++ kv.1) kv.1 pf)
                pkvs with
            | .error e => .error e
            | .ok props => .ok (.mk jsonpointer merged name bases props warnings)

/-- Model of `Path.__init__` (src/openapi.py lines 325-344): one Operation per key of
the resolved path fragment. -/
def mkPath (ctx : DocCtx) (jsonpointer pathname : String)
    (frag : List (String × Json)) : Except PyErr PathM :=
  match elemResolve ctx frag with
  | .error e => .error e
  | .ok resolved =>
    match mapME (fun kv =>
        match asObjE kv.2 with
        | .error e => .error e
        | .ok okvs => mkOperation ctx (jsonpointer ++ "/" ++ kv.1) kv.1 okvs) resolved with
    | .error e => .error e
    | .ok ops => .ok ⟨pathname, ops⟩

/-- Stable insertion modelling Python `sorted(..., key=lambda p: p.name)`. -/
def insertPathByName (p : PathM) : List PathM → List PathM
  | [] => [p]
  | q :: rest =>
    if decide (q.name ≤ p.name) then q :: insertPathByName p rest
    else p :: q :: rest

def sortPathsByName (l : List PathM) : List PathM :=
  l.foldl (fun acc p => insertPathByName p acc) []

/-- Model of `Document.__init__` (src/openapi.py lines 347-374): load the root
fragment via `"#/"`, build one `Path` per `paths` entry (sorted by name) and
one `Definition` per `definitions` entry (declaration order). -/
def mkDocument (ctx : DocCtx) (fuel : Nat) : Except PyErr DocumentM :=
  match load_fragment ctx "#/" with
  | .error e => .error e
  | .ok root =>
    match asObjE root with
    | .error e => .error e
    | .ok rootkvs =>
      match
        (match lookup? "paths" rootkvs with
         | none => Except.ok ([] : List (String × Json))
         | some (.obj pkvs) => .ok pkvs
         | some _ => .error (PyErr.attributeError "paths is not a dict")) with
      | .error e => .error e
      | .ok pathskvs =>
        match mapME (fun kv =>
            match asObjE kv.2 with
            | .error e => .error e
            | .ok pf => mkPath ctx ("#/paths/" ++ kv.1) kv.1 pf) pathskvs with
        | .error e => .error e
        | .ok paths =>
          match
            (match lookup? "definitions" rootkvs with
             | none => Except.ok ([] : List (String × Json))
             | some (.obj dkvs) => .ok dkvs
             | some _ => .error (PyErr.attributeError "definitions is not a dict")) with
          | .error e => .error e
          | .ok defskvs =>
            match mapME (fun kv =>
                match asObjE kv.2 with
                | .error e => .error e
                | .ok df => mkDefinition fuel ctx ("#/definitions/" ++ kv.1) kv.1 df)
                defskvs with
            | .error e => .error e
            | .ok defs => .ok ⟨defs, sortPathsByName paths⟩

/-- One operation's contribution to `Document._extract_references`
(src/openapi.py lines 386-408).  Attribute access on the union-typed
`return_value` follows Python semantics: a `Response` exposes `schema`, while
the `VoidResponse` sentinel has no `schema` attribute, so the access raises
`AttributeError`.  Objects are always truthy, so `if operation.return_value:`
always enters its branch, and `operation.body_parameter.schema` (always a
`Schema` object) is always truthy. -/
def opReferences (op : OperationM) : Except PyErr (List (String × String)) :=
  match
    (match op.return_value with
     | .resp r =>
       match r.schema with
       | some s => Except.ok [("out", s.jsonpointer)]
       | none => .ok [("out", r.jsonpointer)]
     | .voidSentinel =>
       .error (PyErr.attributeError "VoidResponse object has no attribute schema")) with
  | .error e => .error e
  | .ok outs =>
    match op.body_parameter with
    | some bp => .ok (outs ++ [("in", bp.schema.jsonpointer)])
    | none => .ok outs

/-- Model of `Document._extract_references`: the pairs contributed by every operation
of every path.  Python wraps the result in `set()`; only membership of the
result is consumed downstream, so the list of pairs is kept. -/
def extract_references (doc : DocumentM) : Except PyErr (List (String × String)) :=
  match mapME opReferences (doc.paths.map PathM.operations).flatten with
  | .error e => .error e
  | .ok ll => .ok ll.flatten

/-- Model of `Document.resourcedefinitions` (src/openapi.py lines 451-460). -/
def resourcedefinitions (doc : DocumentM) : Except PyErr (List DefinitionM) :=
  match extract_references doc with
  | .error e => .error e
  | .ok refs =>
    .ok (doc.definitions.filter
      (fun d => (refs.map (fun r => r.2)).contains d.jsonpointer))

/-- Model of `Document.supportdefinitions` (src/openapi.py lines 440-449). -/
def supportdefinitions (doc : DocumentM) : Except PyErr (List DefinitionM) :=
  match extract_references doc with
  | .error e => .error e
  | .ok refs =>
    .ok (doc.definitions.filter
      (fun d => !((refs.map (fun r => r.2)).contains d.jsonpointer)))

def c2ctx : DocCtx := ⟨fun _ => none, "/spec.json"⟩

/-- An operation fragment with no `responses` key: no success responses, so
`return_value` is the `VoidResponse` sentinel. -/
def c2frag : List (String × Json) := [("operationId", Json.str "ping")]

def sWidget : SchemaM :=
  ⟨"#/definitions/Widget", [("$ref", Json.str "#/definitions/Widget")], []⟩

def rWidget : ResponseM := ⟨"#/paths/widgets/get/200", [], some sWidget⟩

def opWidget : OperationM :=
  ⟨"#/paths/widgets/get", [("operationId", Json.str "listWidgets")], "GET",
   "listWidgets", none, [], [], [], .resp rWidget, [], []⟩

def defWidget : DefinitionM := .mk "#/definitions/Widget" [] "Widget" [] [] []

def defExtra : DefinitionM := .mk "#/definitions/Extra" [] "Extra" [] [] []

def exDoc7 : DocumentM := ⟨[defWidget, defExtra], [⟨"/widgets", [opWidget]⟩]⟩

/-- Claim C2 (code bug): an operation with no (successful) responses gets the
`VoidResponse` sentinel as its `return_value`; `_extract_references` then
evaluates `operation.return_value.schema`, and `VoidResponse` has no `schema`
attribute, so building the reference set raises `AttributeError` instead of
falling back to the operation's own pointer.  For an operation whose
return value is a `Response`, the `(direction, pointer)` pairs are produced
as claimed. -/
theorem claim_C2_extract_crashes :
    Except.map (fun op => op.return_value)
        (mkOperation c2ctx "#/paths/ping/get" "get" c2frag)
      = .ok ReturnValue.voidSentinel
    ∧ Except.bind (mkOperation c2ctx "#/paths/ping/get" "get" c2frag)
        (fun op => extract_references ⟨[], [⟨"/ping", [op]⟩]⟩)
      = .error (.attributeError "VoidResponse object has no attribute schema")
    ∧ extract_references exDoc7 = .ok [("out", "#/definitions/Widget")] :=
  ⟨rfl, rfl, rfl⟩

/-- Claim C7: every definition lands in exactly one of `resourcedefinitions`
and `supportdefinitions`, and together they cover the definitions list up to
type names, whenever the classification views are computable at all. -/
theorem claim_C7_partition (doc : DocumentM) (refs : List (String × String))
    (res sup : List DefinitionM)
    (h1 : extract_references doc = .ok refs)
    (h2 : resourcedefinitions doc = .ok res)
    (h3 : supportdefinitions doc = .ok sup) :
    (∀ d ∈ doc.definitions, (d ∈ res ∧ d ∉ sup) ∨ (d ∈ sup ∧ d ∉ res))
    ∧ (∀ n, n ∈ (res ++ sup).map DefinitionM.typename
        ↔ n ∈ doc.definitions.map DefinitionM.typename) := by
  unfold resourcedefinitions at h2
  unfold supportdefinitions at h3
  simp only [h1] at h2 h3
  have hres : res = doc.definitions.filter
      (fun d => (refs.map (fun r => r.2)).contains d.jsonpointer) :=
    (Except.ok.inj h2).symm
  have hsup : sup = doc.definitions.filter
      (fun d => !((refs.map (fun r => r.2)).contains d.jsonpointer)) :=
    (Except.ok.inj h3).symm
  subst hres
  subst hsup
  constructor
  · intro d hd
    cases hb : (refs.map (fun r => r.2)).contains d.jsonpointer with
    | true =>
      left
      refine ⟨List.mem_filter.mpr ⟨hd, hb⟩, ?_⟩
      intro hmem
      have h4 := (List.mem_filter.mp hmem).2
      rw [hb] at h4
      exact absurd h4 (by decide)
    | false =>
      right
      refine ⟨List.mem_filter.mpr ⟨hd, by rw [hb]; rfl⟩, ?_⟩
      intro hmem
      have h4 := (List.mem_filter.mp hmem).2
      rw [hb] at h4
      exact absurd h4 (by decide)
  · intro n
    constructor
    · intro hn
      rcases List.mem_map.mp hn with ⟨d, hd, hdn⟩
      rcases List.mem_append.mp hd with hd1 | hd2
      · exact List.mem_map.mpr ⟨d, (List.mem_filter.mp hd1).1, hdn⟩
      · exact List.mem_map.mpr ⟨d, (List.mem_filter.mp hd2).1, hdn⟩
    · intro hn
      rcases List.mem_map.mp hn with ⟨d, hd, hdn⟩
      cases hb : (refs.map (fun r => r.2)).contains d.jsonpointer with
      | true =>
        exact List.mem_map.mpr
          ⟨d, List.mem_append.mpr (Or.inl (List.mem_filter.mpr ⟨hd, hb⟩)), hdn⟩
      | false =>
        exact List.mem_map.mpr
          ⟨d, List.mem_append.mpr (Or.inr (List.mem_filter.mpr ⟨hd, by rw [hb]; rfl⟩)), hdn⟩

/-- Witness for C7 on a concrete two-definition document: the definition used
as an operation output is a resource definition and not a support one. -/
theorem claim_C7_witness :
    (defWidget ∈ [defWidget] ∧ defWidget ∉ [defExtra])
    ∨ (defWidget ∈ [defExtra] ∧ defWidget ∉ [defWidget]) :=
  (claim_C7_partition exDoc7 [("out", "#/definitions/Widget")] [defWidget] [defExtra]
      rfl rfl rfl).1 defWidget (List.mem_cons_self _ _)

theorem mkModelProperty_name (fuel : Nat) (ctx : DocCtx) (ptr pname : String)
    (frag : List (String × Json)) (mp : ModelPropertyM)
    (h : mkModelProperty fuel ctx ptr pname frag = .ok mp) : mp.name = pname := by
  cases fuel with
  | zero => simp [mkModelProperty] at h
  | succ fuel =>
    unfold mkModelProperty at h
    cases h1 : elemResolve ctx frag with
    | error e => rw [h1] at h; exact absurd h (by simp)
    | ok resolved =>
      rw [h1] at h
      dsimp only at h
      cases h2 : type_information ctx frag with
      | error e => rw [h2] at h; exact absurd h (by simp)
      | ok tn =>
        rw [h2] at h
        dsimp only at h
        split at h
        · exact absurd h (by simp)
        · split at h
          · exact absurd h (by simp)
          · split at h
            · exact absurd h (by simp)
            · rw [← Except.ok.inj h]
              rfl

theorem mapME_names {f : String × Json → Except PyErr ModelPropertyM}
    (hf : ∀ kv mp, f kv = .ok mp → mp.name = kv.1) :
    ∀ (l : List (String × Json)) (props : List ModelPropertyM),
      mapME f l = .ok props → props.map ModelPropertyM.name = l.map Prod.fst := by
  intro l
  induction l with
  | nil =>
    intro props h
    simp only [mapME] at h
    rw [← Except.ok.inj h]
    rfl
  | cons kv rest ih =>
    intro props h
    simp only [mapME] at h
    cases h1 : f kv with
    | error e => rw [h1] at h; exact absurd h (by simp)
    | ok mp =>
      rw [h1] at h
      cases h2 : mapME f rest with
      | error e => rw [h2] at h; exact absurd h (by simp)
      | ok ys =>
        rw [h2] at h
        rw [← Except.ok.inj h]
        simp only [List.map_cons]
        rw [hf kv mp h1, ih ys h2]

theorem asObjE_obj (kvs : List (String × Json)) : asObjE (Json.obj kvs) = .ok kvs := rfl

/-- Claim C6: a `Definition` whose `allOf` holds exactly one `$ref` entry and
one inline (non-`$ref`) object entry gets exactly one base (the `$ref` one),
exactly one recorded ambiguity warning, the inline object's keys merged into
its own fragment, and its properties built from the inline object's
`properties` map (one property per key, same names, in order) — construction
does not fail on this shape. -/
theorem claim_C6_allof_inline (fuel : Nat) (ctx : DocCtx) (ptr dname : String)
    (frag bk ik : List (String × Json)) (r : String) (d : DefinitionM)
    (hAll : lookup? "allOf" frag = some (.arr [.obj bk, .obj ik]))
    (hB : lookup? "$ref" bk = some (.str r))
    (hI : lookup? "$ref" ik = none)
    (hOk : mkDefinition fuel ctx ptr dname frag = .ok d) :
    d.bases.length = 1
    ∧ d.warnings.length = 1
    ∧ (∀ k v, lookup? k ik = some v → lookup? k d.jsonfragment = some v)
    ∧ (∀ ipk, lookup? "properties" ik = some (.obj ipk) →
        d.properties.map ModelPropertyM.name = ipk.map Prod.fst) := by
  cases fuel with
  | zero => simp [mkDefinition] at hOk
  | succ fuel =>
    unfold mkDefinition at hOk
    cases h1 : elemResolve ctx frag with
    | error e => rw [h1] at hOk; exact absurd hOk (by simp)
    | ok resolved =>
      rw [h1] at hOk
      dsimp only at hOk
      rw [hAll] at hOk
      simp only [mapME, asObjE_obj, List.filter_cons, List.filter_nil, containsKey,
        hB, hI, Option.isSome_some, Option.isSome_none, Bool.not_true, Bool.not_false,
        Bool.false_eq_true, Bool.true_eq_false, List.foldl_cons, List.foldl_nil,
        List.map_cons, List.map_nil, if_true, if_false, ite_true, ite_false] at hOk
      cases h2 : elemResolve ctx bk with
      | error e2 => rw [h2] at hOk; exact absurd hOk (by simp)
      | ok rb =>
        rw [h2] at hOk
        dsimp only at hOk
        cases h3 : mkDefinition fuel ctx r (lastSegment r) rb with
        | error e3 => rw [h3] at hOk; exact absurd hOk (by simp)
        | ok bdef =>
          rw [h3] at hOk
          dsimp only at hOk
          cases h4 : lookup? "properties" (dictUpdate resolved ik) with
          | none =>
            rw [h4] at hOk
            simp only [mapME] at hOk
            cases Except.ok.inj hOk
            refine ⟨rfl, rfl, ?_, ?_⟩
            · intro k v hv
              have hc : containsKey ik k = true := by simp [containsKey, hv]
              simp only [DefinitionM.jsonfragment]
              rw [lookup_dictUpdate, hc]
              simpa using hv
            · intro ipk hipk
              have hc : containsKey ik "properties" = true := by
                simp [containsKey, hipk]
              have h6 : lookup? "properties" (dictUpdate resolved ik)
                  = some (Json.obj ipk) := by
                rw [lookup_dictUpdate, hc]
                simpa using hipk
              rw [h4] at h6
              exact absurd h6 (by simp)
          | some pv =>
            rw [h4] at hOk
            cases pv
            case obj pkvs =>
              dsimp only at hOk
              cases h5 : mapME (fun kv =>
                  match asObjE kv.2 with
                  | .error e => Except.error e
                  | .ok pf =>
                    mkModelProperty fuel ctx (ptr ++ "/properties" ++ kv.1) kv.1 pf)
                  pkvs with
              | error e5 => rw [h5] at hOk; exact absurd hOk (by simp)
              | ok props =>
                rw [h5] at hOk
                dsimp only at hOk
                cases Except.ok.inj hOk
                refine ⟨rfl, rfl, ?_, ?_⟩
                · intro k v hv
                  have hc : containsKey ik k = true := by simp [containsKey, hv]
                  simp only [DefinitionM.jsonfragment]
                  rw [lookup_dictUpdate, hc]
                  simpa using hv
                · intro ipk hipk
                  have hc : containsKey ik "properties" = true := by
                    simp [containsKey, hipk]
                  have h6 : lookup? "properties" (dictUpdate resolved ik)
                      = some (Json.obj ipk) := by
                    rw [lookup_dictUpdate, hc]
                    simpa using hipk
                  rw [h4] at h6
                  have h7 : pkvs = ipk := by
                    injection h6 with h8
                    injection h8
                  subst h7
                  simp only [DefinitionM.properties]
                  refine mapME_names ?_ pkvs props h5
                  intro kv mp hkv
                  cases h8 : asObjE kv.2 with
                  | error e8 => rw [h8] at hkv; exact absurd hkv (by simp)
                  | ok pf =>
                    rw [h8] at hkv
                    dsimp only at hkv
                    exact mkModelProperty_name fuel ctx (ptr ++ "/properties" ++ kv.1)
                      kv.1 pf mp hkv
            all_goals (dsimp only at hOk; exact absurd hOk (by simp))

def c6fs : String → Option Json := fun p =>
  if p = "/spec.json" then
    some (.obj [("definitions", .obj [
      ("Base", .obj [("properties", .obj [("bid", .obj [("type", .str "string")])])])])])
  else none

def c6ctx : DocCtx := ⟨c6fs, "/spec.json"⟩

def c6frag : List (String × Json) :=
  [("allOf", .arr [
      .obj [("$ref", Json.str "#/definitions/Base")],
      .obj [("properties", .obj [("extra", .obj [("type", .str "string")])])]])]

def c6def : DefinitionM :=
  match mkDefinition 3 c6ctx "#/definitions/Child" "Child" c6frag with
  | .ok d => d
  | .error _ => .mk "" [] "" [] [] []

/-- Witness for C6: a concrete definition with one `$ref` base and one inline
entry builds successfully, with one base, one warning, and the inline
property present. -/
theorem claim_C6_witness :
    c6def.bases.length = 1 ∧ c6def.warnings.length = 1
    ∧ c6def.properties.map ModelPropertyM.name = ["extra"] := by
  have h := claim_C6_allof_inline 3 c6ctx "#/definitions/Child" "Child" c6frag
    [("$ref", Json.str "#/definitions/Base")]
    [("properties", Json.obj [("extra", Json.obj [("type", Json.str "string")])])]
    "#/definitions/Base" c6def rfl rfl rfl rfl
  refine ⟨h.1, h.2.1, ?_⟩
  rw [h.2.2.2 [("extra", Json.obj [("type", Json.str "string")])] rfl]
  rfl

structure Token : Type where
  DefinitionId : Option String
  NavigateToId : Option String
  Value : Option String
  Kind : Nat
  deriving DecidableEq, Repr

/-- Token constructor helpers of src/apiserializer.py lines 19-78; the Python
keyword-only `definition_id` / `navigate_to_id` arguments are positional
here. -/
def text (value : String) (definition_id navigate_to_id : Option String) : List Token :=
  [⟨definition_id, navigate_to_id, some value, 0⟩]

def newline : List Token := [⟨none, none, none, 1⟩]

def whitespace (spaces : Nat) : List Token :=
  [⟨none, none, some (String.mk (List.replicate spaces ' ')), 2⟩]

def punctuation (value : String) : List Token := [⟨none, none, some value, 3⟩]

def keyword (value : String) (definition_id navigate_to_id : Option String) : List Token :=
  [⟨definition_id, navigate_to_id, some value, 4⟩]

def typename (value : String) (definition_id navigate_to_id : Option String) : List Token :=
  [⟨definition_id, navigate_to_id, some value, 6⟩]

def member (value : String) (definition_id navigate_to_id : Option String) : List Token :=
  [⟨definition_id, navigate_to_id, some value, 7⟩]

def path_definition_id (pathname : String) : String := "path:" ++ pathname

/-- Model of `model_definition_id` (src/apiserializer.py lines 85-89): both the
string and the Definition overload produce `"definition:" + typename`. -/
def model_definition_id (tname : String) : String := "definition:" ++ tname

/-- The attribute values of a built Operation that the token serializer
reads; each lazy Python property access is factored into this view. -/
structure ParamView : Type where
  name : String

structure BodyView : Type where
  typename : String

structure OpView : Type where
  verb : String
  name : String
  return_typename : String
  body_parameter : Option BodyView
  path_parameters : List ParamView
  query_parameters : List ParamView
  header_parameters : List ParamView

inductive PropView : Type where
  | mk : String → String → Option String → String → List PropView → PropView

def PropView.name : PropView → String
  | .mk n _ _ _ _ => n

def PropView.typename : PropView → String
  | .mk _ t _ _ _ => t

def PropView.itemtypename : PropView → Option String
  | .mk _ _ i _ _ => i

def PropView.typetype : PropView → String
  | .mk _ _ _ t _ => t

def PropView.properties : PropView → List PropView
  | .mk _ _ _ _ ps => ps

structure DefView : Type where
  typename : String
  baseTypenames : List String
  properties : List PropView

structure PathView : Type where
  name : String
  operations : List OpView

structure DocView : Type where
  paths : List PathView
  resourcedefs : List DefView
  supportdefs : List DefView

/-- The per-parameter loop shared by the groups of
`serialize_operation_parameters`: a comma+space before every parameter
except the first, then the name as a Member token. -/
def addParams (ps : List ParamView) (tokens : List Token) (first : Bool) : List Token :=
  match ps with
  | [] => tokens
  | p :: rest =>
    let tokens2 := if first then tokens else tokens ++ punctuation "," ++ whitespace 1
    addParams rest (tokens2 ++ member p.name none none) false

/-- The query/header group loop of `serialize_operation_parameters`. -/
def addGroup (group : String) (ps : List ParamView) (tokens : List Token) : List Token :=
  if ps.isEmpty then tokens
  else
    addParams ps
      ((if tokens.isEmpty then tokens else tokens ++ punctuation "," ++ whitespace 1)
        ++ keyword group none none ++ whitespace 1) true

/-- Model of `ApiViewTokenEncoder.serialize_operation_parameters` (src/apiserializer.py
lines 151-195): path group, then body, then query, then header, with a
comma+space between non-empty groups. -/
def serialize_operation_parameters (op : OpView) : List Token :=
  let tokens : List Token := []
  let tokens :=
    if op.path_parameters.isEmpty then tokens
    else addParams op.path_parameters (tokens ++ keyword "path" none none ++ whitespace 1) true
  let tokens :=
    match op.body_parameter with
    | some bp =>
      (if tokens.isEmpty then tokens else tokens ++ punctuation "," ++ whitespace 1)
        ++ keyword "body" none none ++ whitespace 1
        ++ typename bp.typename none (some (model_definition_id bp.typename))
    | none => tokens
  let tokens := addGroup "query" op.query_parameters tokens
  addGroup "header" op.header_parameters tokens

/-- Model of `ApiViewTokenEncoder.serialize_operation` (src/apiserializer.py lines
197-213): two spaces, verb keyword, space, return-type Typename whose
DefinitionId is the bare typename string, space, the name as a Member with
its own DefinitionId, parenthesised parameters, newline. -/
def serialize_operation (op : OpView) : List Token :=
  whitespace 2 ++ keyword op.verb none none ++ whitespace 1
    ++ typename op.return_typename (some op.return_typename) none
    ++ whitespace 1 ++ member op.name (some op.name) none
    ++ punctuation "(" ++ serialize_operation_parameters op ++ punctuation ")"
    ++ newline

/-- Model of `ApiViewTokenEncoder.serialize_path` (src/apiserializer.py lines 215-222). -/
def serialize_path (p : PathView) : List Token :=
  (text p.name (some (path_definition_id p.name)) none ++ newline)
    ++ (p.operations.map serialize_operation).flatten

/-- Model of `ApiViewTokenEncoder._recurse_serialize_definition` (src/apiserializer.py
lines 224-249); `itemtypename or typename` is Python truthiness, so `None`
and the empty string both fall back to the typename. -/
def recurse_serialize_definition : PropView → Nat → List Token
  | .mk pname ptn pitn ptt children, depth =>
    let displayName : String :=
      match pitn with
      | some s => if s = "" then ptn else s
      | none => ptn
    let isArr : Bool :=
      match pitn with
      | some s => !(s == "")
      | none => false
    let propertytypetoken :=
      if ptt = "model" then
        typename displayName none (some (model_definition_id displayName))
      else keyword displayName none none
    let propertytypetoken :=
      if isArr then punctuation "[" ++ propertytypetoken ++ punctuation "]"
      else propertytypetoken
    (whitespace (4 * depth) ++ propertytypetoken ++ whitespace 1
      ++ member pname none none ++ newline)
      ++ (children.attach.map
            (fun c => recurse_serialize_definition c.1 (depth + 1))).flatten
termination_by p depth => sizeOf p
decreasing_by
  simp_wf
  have := List.sizeOf_lt_of_mem c.2
  omega

/-- Model of `ApiViewTokenEncoder.serialize_definition` (src/apiserializer.py lines
251-273): group keyword, space, the type name as an anchored Typename; bases
wrapped in parentheses, each a Typename link with no separator between them;
newline; then the depth-first property lines. -/
def serialize_definition (resource_or_support : String) (d : DefView) : List Token :=
  let tokens := keyword resource_or_support none none ++ whitespace 1
    ++ typename d.typename (some (model_definition_id d.typename)) none
  let bases : List Token :=
    match d.baseTypenames with
    | [] => []
    | b :: rest =>
      punctuation "(" ++ typename b none (some (model_definition_id b))
        ++ (rest.map (fun b2 => typename b2 none (some (model_definition_id b2)))).flatten
  let tokens := if bases.isEmpty then tokens else tokens ++ bases ++ punctuation ")"
  let tokens := tokens ++ newline
  tokens ++ (d.properties.map (fun mp => recurse_serialize_definition mp 1)).flatten

/-- Model of `ApiViewTokenEncoder.serialize` (src/apiserializer.py lines 275-286):
paths, a two-newline separator when any path tokens exist, then resource
definitions, then support definitions. -/
def serialize (doc : DocView) : List Token :=
  let tokens := (doc.paths.map serialize_path).flatten
  let tokens := if tokens.isEmpty then tokens else tokens ++ newline ++ newline
  let tokens := tokens ++ (doc.resourcedefs.map (serialize_definition "ResourceModel")).flatten
  tokens ++ (doc.supportdefs.map (serialize_definition "InnerModel")).flatten

/-- Concatenated display text of a token list (structural tokens with a null
`Value` contribute nothing). -/
def render : List Token → String
  | [] => ""
  | t :: ts => (t.Value.getD "") ++ render ts

theorem render_append (a b : List Token) : render (a ++ b) = render a ++ render b := by
  induction a with
  | nil => simp [render]
  | cons t ts ih =>
    simp only [List.cons_append, render, List.append_eq]
    rw [ih, String.append_assoc]

/-- Modelled from the spec: "a comma+space separator inserted between any two
non-empty groups and between successive parameters within a group". -/
def joinCommaSpace : List String → String
  | [] => ""
  | [x] => x
  | x :: xs => x ++ ", " ++ joinCommaSpace xs

/-- Modelled from the spec: the parameter list as its non-empty groups in the
fixed order path, body, query, header — each group its keyword followed by
the comma+space separated parameter names (the body group: its typename). -/
def specParamGroups (op : OpView) : List String :=
  (if op.path_parameters.isEmpty then []
   else ["path " ++ joinCommaSpace (op.path_parameters.map ParamView.name)])
  ++ (match op.body_parameter with
      | some bp => ["body " ++ bp.typename]
      | none => [])
  ++ (if op.query_parameters.isEmpty then []
      else ["query " ++ joinCommaSpace (op.query_parameters.map ParamView.name)])
  ++ (if op.header_parameters.isEmpty then []
      else ["header " ++ joinCommaSpace (op.header_parameters.map ParamView.name)])

/-- The tokens `addParams` appends for each parameter after the first. -/
def restTokens : List ParamView → List Token
  | [] => []
  | p :: rest =>
    punctuation "," ++ whitespace 1 ++ member p.name none none ++ restTokens rest

theorem addParams_false (ps : List ParamView) :
    ∀ t, addParams ps t false = t ++ restTokens ps := by
  induction ps with
  | nil => intro t; simp [addParams, restTokens]
  | cons p rest ih =>
    intro t
    simp only [addParams]
    rw [if_neg (by simp)]
    rw [ih]
    simp [restTokens, List.append_assoc]

theorem addParams_true (p : ParamView) (rest : List ParamView) (t : List Token) :
    addParams (p :: rest) t true = t ++ member p.name none none ++ restTokens rest := by
  simp only [addParams]
  rw [if_pos trivial]
  rw [addParams_false]

theorem render_params (rest : List ParamView) :
    ∀ p : ParamView, render (member p.name none none ++ restTokens rest)
      = joinCommaSpace ((p :: rest).map ParamView.name) := by
  induction rest with
  | nil =>
    intro p
    simp [member, restTokens, render, joinCommaSpace]
  | cons q rs ih =>
    intro p
    have h1 : member p.name none none ++ restTokens (q :: rs)
        = member p.name none none
          ++ ((punctuation "," ++ whitespace 1)
            ++ (member q.name none none ++ restTokens rs)) := by
      simp [restTokens, List.append_assoc]
    rw [h1, render_append, render_append, ih q]
    have h2 : render (punctuation "," ++ whitespace 1) = ", " := rfl
    have h3 : render (member p.name none none) = p.name := by
      simp [member, render]
    rw [h2, h3]
    have h4 : ((p :: q :: rs).map ParamView.name)
        = p.name :: ((q :: rs).map ParamView.name) := rfl
    rw [h4]
    have h5 : ∀ (y : String) (ys : List String),
        joinCommaSpace (p.name :: y :: ys) = p.name ++ (", " ++ joinCommaSpace (y :: ys)) := by
      intro y ys
      simp [joinCommaSpace, String.append_assoc]
    rw [List.map_cons]
    rw [h5]

/-- The comma-prefixed tail form of the spec's comma+space join. -/
def joinRest : List String → String
  | [] => ""
  | x :: xs => ", " ++ x ++ joinRest xs

theorem joinCommaSpace_nil : joinCommaSpace [] = "" := rfl

theorem joinCommaSpace_cons (x : String) (xs : List String) :
    joinCommaSpace (x :: xs) = x ++ joinRest xs := by
  induction xs generalizing x with
  | nil => simp [joinCommaSpace, joinRest]
  | cons y ys ih =>
    simp [joinCommaSpace, joinRest, ih y, String.append_assoc]

theorem fold_comma (x : String) : "," ++ (" " ++ x) = ", " ++ x := by
  rw [← String.append_assoc]
  rfl

theorem fold_path (x : String) : "path" ++ (" " ++ x) = "path " ++ x := by
  rw [← String.append_assoc]
  rfl

theorem fold_body (x : String) : "body" ++ (" " ++ x) = "body " ++ x := by
  rw [← String.append_assoc]
  rfl

theorem fold_query (x : String) : "query" ++ (" " ++ x) = "query " ++ x := by
  rw [← String.append_assoc]
  rfl

theorem fold_header (x : String) : "header" ++ (" " ++ x) = "header " ++ x := by
  rw [← String.append_assoc]
  rfl

theorem render_restTokens (rest : List ParamView) :
    render (restTokens rest) = joinRest (rest.map ParamView.name) := by
  induction rest with
  | nil => rfl
  | cons q rs ih =>
    simp [restTokens, render_append, render, punctuation, whitespace, member,
      joinRest, ih, String.append_assoc, fold_comma]

theorem addGroup_nil (g : String) (t : List Token) : addGroup g [] t = t := rfl

theorem addGroup_cons (g : String) (p : ParamView) (rest : List ParamView)
    (t : List Token) :
    addGroup g (p :: rest) t
      = ((if t.isEmpty then t else t ++ punctuation "," ++ whitespace 1)
          ++ keyword g none none ++ whitespace 1)
        ++ member p.name none none ++ restTokens rest := by
  simp only [addGroup, List.isEmpty_cons, Bool.false_eq_true, if_false]
  rw [addParams_true]

def exOp8 : OpView :=
  ⟨"GET", "list", "void", none, [⟨"id"⟩, ⟨"subId"⟩], [⟨"filter"⟩], []⟩

/-- Claim C8: for every operation, the rendered parameter list equals the
spec's rendering — groups in the fixed order path, body, query, header, a
comma+space between non-empty groups and between successive parameters of a
group — and the spec's concrete scenario renders exactly as stated. -/
theorem claim_C8_param_rendering :
    (∀ op : OpView, render (serialize_operation_parameters op)
        = joinCommaSpace (specParamGroups op))
    ∧ render (serialize_operation_parameters exOp8)
        = "path id, subId, query filter" := by
  constructor
  · intro op
    obtain ⟨vb, onm, rt, body, pps, qps, hps⟩ := op
    simp only [serialize_operation_parameters, specParamGroups]
    cases pps <;> cases body <;> cases qps <;> cases hps <;>
      simp [addGroup_nil, addGroup_cons, addParams_true, render_append, render,
        keyword, member, punctuation, whitespace, typename, render_restTokens,
        joinCommaSpace_nil, joinCommaSpace_cons, joinRest, String.append_assoc,
        List.append_assoc, fold_comma, fold_path, fold_body, fold_query, fold_header]
  · rfl

/-- Claim C9: the return-type Typename token of a serialized operation (the
fourth token) carries the bare return type name itself as its DefinitionId —
never the "definition:"-prefixed canonical anchor id used for Definition
anchors. -/
theorem claim_C9_return_defid (op : OpView) :
    (serialize_operation op)[3]?
      = some ⟨some op.return_typename, none, some op.return_typename, 6⟩
    ∧ op.return_typename ≠ model_definition_id op.return_typename := by
  constructor
  · rfl
  · intro h
    have h2 := congrArg String.length h
    rw [model_definition_id, String.length_append] at h2
    have h3 : ("definition:" : String).length = 11 := rfl
    rw [h3] at h2
    omega

/-- The two invariants claimed for every emitted token: a kind in
{0,1,2,3,4,6,7}, and null ids on the structural kinds 1, 2, 3. -/
def structuralOk (t : Token) : Prop :=
  (t.Kind = 0 ∨ t.Kind = 1 ∨ t.Kind = 2 ∨ t.Kind = 3 ∨ t.Kind = 4 ∨ t.Kind = 6 ∨ t.Kind = 7)
  ∧ ((t.Kind = 1 ∨ t.Kind = 2 ∨ t.Kind = 3) → t.DefinitionId = none ∧ t.NavigateToId = none)

def allGood (ts : List Token) : Prop := ∀ t ∈ ts, structuralOk t

theorem allGood_append {a b : List Token} (ha : allGood a) (hb : allGood b) :
    allGood (a ++ b) := by
  intro t ht
  rcases List.mem_append.mp ht with h | h
  · exact ha t h
  · exact hb t h

theorem allGood_nil : allGood [] := by
  intro t ht
  simp at ht

theorem allGood_anchor (k : Nat) (i n v : Option String)
    (hk : k = 0 ∨ k = 4 ∨ k = 6 ∨ k = 7) : allGood [⟨i, n, v, k⟩] := by
  intro t ht
  simp at ht
  subst ht
  constructor
  · rcases hk with h|h|h|h <;> simp [h]
  · intro hkk
    exfalso
    rcases hk with h|h|h|h <;> subst h <;>
      (rcases hkk with h2|h2|h2 <;> simp at h2)

theorem allGood_structural (k : Nat) (v : Option String)
    (hk : k = 1 ∨ k = 2 ∨ k = 3) : allGood [⟨none, none, v, k⟩] := by
  intro t ht
  simp at ht
  subst ht
  refine ⟨?_, fun _ => ⟨rfl, rfl⟩⟩
  rcases hk with h|h|h <;> simp [h]

theorem allGood_text (v : String) (i n : Option String) : allGood (text v i n) :=
  allGood_anchor 0 i n (some v) (Or.inl rfl)

theorem allGood_newline : allGood newline :=
  allGood_structural 1 none (Or.inl rfl)

theorem allGood_whitespace (k : Nat) : allGood (whitespace k) :=
  allGood_structural 2 _ (Or.inr (Or.inl rfl))

theorem allGood_punctuation (v : String) : allGood (punctuation v) :=
  allGood_structural 3 (some v) (Or.inr (Or.inr rfl))

theorem allGood_keyword (v : String) (i n : Option String) : allGood (keyword v i n) :=
  allGood_anchor 4 i n (some v) (Or.inr (Or.inl rfl))

theorem allGood_typename (v : String) (i n : Option String) : allGood (typename v i n) :=
  allGood_anchor 6 i n (some v) (Or.inr (Or.inr (Or.inl rfl)))

theorem allGood_member (v : String) (i n : Option String) : allGood (member v i n) :=
  allGood_anchor 7 i n (some v) (Or.inr (Or.inr (Or.inr rfl)))

theorem allGood_flatten {ll : List (List Token)} (h : ∀ l ∈ ll, allGood l) :
    allGood ll.flatten := by
  intro t ht
  rcases List.mem_flatten.mp ht with ⟨l, hl, htl⟩
  exact h l hl t htl

theorem allGood_restTokens (ps : List ParamView) : allGood (restTokens ps) := by
  induction ps with
  | nil => exact allGood_nil
  | cons p rest ih =>
    exact allGood_append
      (allGood_append (allGood_append (allGood_punctuation ",") (allGood_whitespace 1))
        (allGood_member _ _ _)) ih

theorem allGood_addParams (ps : List ParamView) :
    ∀ (t : List Token) (first : Bool), allGood t → allGood (addParams ps t first) := by
  induction ps with
  | nil => intro t first ht; simpa [addParams] using ht
  | cons p rest ih =>
    intro t first ht
    simp only [addParams]
    refine ih _ false (allGood_append ?_ (allGood_member _ _ _))
    cases first with
    | true => simpa using ht
    | false =>
      simp only [Bool.false_eq_true, if_false]
      exact allGood_append (allGood_append ht (allGood_punctuation ","))
        (allGood_whitespace 1)

theorem allGood_addGroup (g : String) (ps : List ParamView) (t : List Token)
    (ht : allGood t) : allGood (addGroup g ps t) := by
  unfold addGroup
  split
  · exact ht
  · refine allGood_addParams _ _ _ (allGood_append (allGood_append ?_
      (allGood_keyword _ _ _)) (allGood_whitespace 1))
    split
    · exact ht
    · exact allGood_append (allGood_append ht (allGood_punctuation ","))
        (allGood_whitespace 1)

theorem allGood_spp (op : OpView) : allGood (serialize_operation_parameters op) := by
  simp only [serialize_operation_parameters]
  apply allGood_addGroup
  apply allGood_addGroup
  repeat'
    first
      | exact allGood_nil
      | exact allGood_keyword _ _ _
      | exact allGood_typename _ _ _
      | exact allGood_member _ _ _
      | exact allGood_punctuation _
      | exact allGood_whitespace _
      | apply allGood_addParams
      | apply allGood_append
      | split

theorem allGood_serialize_operation (op : OpView) : allGood (serialize_operation op) := by
  unfold serialize_operation
  exact allGood_append (allGood_append (allGood_append (allGood_append (allGood_append
    (allGood_append (allGood_append (allGood_append (allGood_append
      (allGood_whitespace 2) (allGood_keyword _ _ _)) (allGood_whitespace 1))
      (allGood_typename _ _ _)) (allGood_whitespace 1)) (allGood_member _ _ _))
      (allGood_punctuation "(")) (allGood_spp op)) (allGood_punctuation ")"))
      allGood_newline

theorem allGood_serialize_path (p : PathView) : allGood (serialize_path p) := by
  unfold serialize_path
  refine allGood_append (allGood_append (allGood_text _ _ _) allGood_newline) ?_
  apply allGood_flatten
  intro l hl
  rcases List.mem_map.mp hl with ⟨o, ho, rfl⟩
  exact allGood_serialize_operation o

theorem allGood_recurse_aux (n : Nat) :
    ∀ (p : PropView), sizeOf p ≤ n → ∀ depth,
      allGood (recurse_serialize_definition p depth) := by
  induction n with
  | zero =>
    intro p hp depth
    exfalso
    cases p with
    | mk a b c d e => simp [PropView.mk.sizeOf_spec] at hp
  | succ n ih =>
    intro p hp depth
    cases p with
    | mk pname ptn pitn ptt children =>
      rw [recurse_serialize_definition.eq_def]
      dsimp only
      refine allGood_append ?_ ?_
      · refine allGood_append (allGood_append (allGood_append (allGood_append
          (allGood_whitespace _) ?_) (allGood_whitespace 1)) (allGood_member _ _ _))
          allGood_newline
        split
        · refine allGood_append (allGood_append (allGood_punctuation "[") ?_)
            (allGood_punctuation "]")
          split
          · exact allGood_typename _ _ _
          · exact allGood_keyword _ _ _
        · split
          · exact allGood_typename _ _ _
          · exact allGood_keyword _ _ _
      · apply allGood_flatten
        intro l hl
        rcases List.mem_map.mp hl with ⟨c, hc, rfl⟩
        refine ih c.1 ?_ (depth + 1)
        have h1 := List.sizeOf_lt_of_mem c.2
        have h2 : sizeOf (PropView.mk pname ptn pitn ptt children) ≤ n + 1 := hp
        simp [PropView.mk.sizeOf_spec] at h2
        omega

theorem allGood_recurse (p : PropView) (depth : Nat) :
    allGood (recurse_serialize_definition p depth) :=
  allGood_recurse_aux (sizeOf p) p (Nat.le_refl _) depth

theorem allGood_serialize_definition (rs : String) (d : DefView) :
    allGood (serialize_definition rs d) := by
  simp only [serialize_definition]
  have h1 : allGood (keyword rs none none ++ whitespace 1
      ++ typename d.typename (some (model_definition_id d.typename)) none) :=
    allGood_append (allGood_append (allGood_keyword _ _ _) (allGood_whitespace 1))
      (allGood_typename _ _ _)
  have hbases : allGood (match d.baseTypenames with
      | [] => ([] : List Token)
      | b :: rest => punctuation "(" ++ typename b none (some (model_definition_id b))
          ++ (rest.map (fun b2 => typename b2 none (some (model_definition_id b2)))).flatten) := by
    split
    · exact allGood_nil
    · refine allGood_append (allGood_append (allGood_punctuation "(")
        (allGood_typename _ _ _)) ?_
      apply allGood_flatten
      intro l hl
      rcases List.mem_map.mp hl with ⟨b2, hb2, rfl⟩
      exact allGood_typename _ _ _
  refine allGood_append (allGood_append ?_ allGood_newline) ?_
  · split
    · exact h1
    · exact allGood_append (allGood_append h1 hbases) (allGood_punctuation ")")
  · apply allGood_flatten
    intro l hl
    rcases List.mem_map.mp hl with ⟨mp, hmp, rfl⟩
    exact allGood_recurse mp 1

theorem allGood_serialize (doc : DocView) : allGood (serialize doc) := by
  simp only [serialize]
  have h1 : allGood (doc.paths.map serialize_path).flatten := by
    apply allGood_flatten
    intro l hl
    rcases List.mem_map.mp hl with ⟨p, hp, rfl⟩
    exact allGood_serialize_path p
  refine allGood_append (allGood_append ?_ ?_) ?_
  · split
    · exact h1
    · exact allGood_append (allGood_append h1 allGood_newline) allGood_newline
  · apply allGood_flatten
    intro l hl
    rcases List.mem_map.mp hl with ⟨d0, hd0, rfl⟩
    exact allGood_serialize_definition _ d0
  · apply allGood_flatten
    intro l hl
    rcases List.mem_map.mp hl with ⟨d0, hd0, rfl⟩
    exact allGood_serialize_definition _ d0

/-- Claim C10: every token the serializer emits has Kind in
{0, 1, 2, 3, 4, 6, 7} — never 5 — and every structural token (Newline 1,
Whitespace 2, Punctuation 3) has both DefinitionId and NavigateToId null. -/
theorem claim_C10_token_kinds (doc : DocView) (t : Token) (ht : t ∈ serialize doc) :
    (t.Kind = 0 ∨ t.Kind = 1 ∨ t.Kind = 2 ∨ t.Kind = 3 ∨ t.Kind = 4 ∨ t.Kind = 6 ∨ t.Kind = 7)
    ∧ ((t.Kind = 1 ∨ t.Kind = 2 ∨ t.Kind = 3) →
        t.DefinitionId = none ∧ t.NavigateToId = none) :=
  allGood_serialize doc t ht

def exDocView : DocView := ⟨[⟨"/widgets", [exOp8]⟩], [⟨"Widget", [], []⟩], []⟩

def exTok : Token := ⟨none, none, none, 1⟩

/-- Witness for C10 at a concrete document and the newline token it emits. -/
theorem claim_C10_witness :
    (exTok.Kind = 0 ∨ exTok.Kind = 1 ∨ exTok.Kind = 2 ∨ exTok.Kind = 3
      ∨ exTok.Kind = 4 ∨ exTok.Kind = 6 ∨ exTok.Kind = 7)
    ∧ ((exTok.Kind = 1 ∨ exTok.Kind = 2 ∨ exTok.Kind = 3) →
        exTok.DefinitionId = none ∧ exTok.NavigateToId = none) :=
  claim_C10_token_kinds exDocView exTok (by decide)
